import Mathlib

/-!
Verification of the connection-handling and request/response pipeline of a
minimal HTTP/1.1 server (src/src/main.rs).

Strings on the wire are modelled as lists of bytes (natural numbers below
256); Rust String values are byte lists that are valid UTF-8.  The
char-level string functions the handler uses (split_whitespace, trim)
recognize the full Unicode White_Space set; here they are modelled at the
byte level through wsLen, which matches the UTF-8 encodings of exactly
those characters — on valid UTF-8 input, the only input the handler gives
these functions, the byte scan coincides with the char-level one.  The
filesystem is modelled as an association list from path strings to raw file
contents; fs::read_to_string fails when the entry is absent or its content
is not valid UTF-8.  A connection task that panics (unwrap on None/Err) is
modelled as the handler returning none: no response bytes are written.
-/

namespace HttpServer

/-- A wire string: a list of bytes. -/
abbrev ByteStr := List Nat

/-- UTF-8 bytes of an ASCII Lean string literal, used to embed the string
literals of the source. -/
def bytes (s : String) : ByteStr := s.data.map Char.toNat

/-- Byte length of the Unicode White_Space character encoded at the head of
the string, 0 when the head does not start a whitespace character.  The
byte patterns are the UTF-8 encodings of every code point accepted by
char::is_whitespace: U+0009..U+000D and U+0020 (one byte), U+0085 and
U+00A0 (194 followed by 133 or 160), U+1680 (225 154 128), U+2000..U+200A,
U+2028, U+2029 and U+202F (226 128 then 128..138, 168, 169 or 175),
U+205F (226 129 159), U+3000 (227 128 128).  In valid UTF-8 input — the
only input the handler feeds to the char-level string functions — these
leading bytes start exactly these characters, so matching the byte
patterns agrees with the char-level test. -/
def wsLen : ByteStr → Nat
  | [] => 0
  | b :: rest =>
    if b = 9 ∨ b = 10 ∨ b = 11 ∨ b = 12 ∨ b = 13 ∨ b = 32 then 1
    else if b = 194 then
      match rest with
      | b1 :: _ => if b1 = 133 ∨ b1 = 160 then 2 else 0
      | [] => 0
    else if b = 225 then
      match rest with
      | 154 :: 128 :: _ => 3
      | _ => 0
    else if b = 226 then
      match rest with
      | b1 :: b2 :: _ =>
        if b1 = 128 ∧ ((128 ≤ b2 ∧ b2 ≤ 138) ∨ b2 = 168 ∨ b2 = 169 ∨ b2 = 175) then 3
        else if b1 = 129 ∧ b2 = 159 then 3
        else 0
      | _ => 0
    else if b = 227 then
      match rest with
      | 128 :: 128 :: _ => 3
      | _ => 0
    else 0

/-- Helper for splitWhitespace: fuel-driven scan that pushes non-whitespace
bytes onto the current token (reversed) and closes the token on each whole
whitespace character found by wsLen.  Every step consumes at least one
byte, so length-of-stream fuel always suffices. -/
def splitWsAux : Nat → ByteStr → ByteStr → List ByteStr
  | 0, _, acc => if acc = [] then [] else [acc.reverse]
  | fuel + 1, s, acc =>
    match s with
    | [] => if acc = [] then [] else [acc.reverse]
    | b :: rest =>
      if wsLen (b :: rest) = 0 then splitWsAux fuel rest (b :: acc)
      else if acc = [] then splitWsAux fuel ((b :: rest).drop (wsLen (b :: rest))) []
      else acc.reverse :: splitWsAux fuel ((b :: rest).drop (wsLen (b :: rest))) []

/-- Model of str::split_whitespace: the list of maximal runs of bytes not
belonging to a whitespace character. -/
def splitWhitespace (s : ByteStr) : List ByteStr := splitWsAux s.length s []

/-- Helper for splitOn, accumulating the current piece reversed. -/
def splitOnAux (sep : Nat) : ByteStr → ByteStr → List ByteStr
  | [], acc => [acc.reverse]
  | b :: rest, acc =>
    if b = sep then acc.reverse :: splitOnAux sep rest []
    else splitOnAux sep rest (b :: acc)

/-- Model of str::split on a one-byte separator: pieces between separators,
empty pieces included. -/
def splitOn (sep : Nat) (s : ByteStr) : List ByteStr := splitOnAux sep s []

/-- Model of str::split_once on a one-byte separator: the parts before and
after the first occurrence, or none when the separator is absent. -/
def splitOnce (sep : Nat) : ByteStr → Option (ByteStr × ByteStr)
  | [] => none
  | b :: rest =>
    if b = sep then some ([], rest)
    else (splitOnce sep rest).map fun p => (b :: p.1, p.2)

/-- Helper for trim: drop whole whitespace characters from the start. -/
def trimStartAux : Nat → ByteStr → ByteStr
  | 0, s => s
  | fuel + 1, s => if wsLen s = 0 then s else trimStartAux fuel (s.drop (wsLen s))

/-- Helper for trim: drop the trailing run of whitespace characters,
scanning from the left (a whitespace character is kept exactly when some
non-whitespace byte follows it). -/
def trimEndAux : Nat → ByteStr → ByteStr
  | 0, _ => []
  | fuel + 1, s =>
    match s with
    | [] => []
    | b :: rest =>
      if wsLen (b :: rest) = 0 then b :: trimEndAux fuel rest
      else
        let tail := trimEndAux fuel ((b :: rest).drop (wsLen (b :: rest)))
        if tail = [] then [] else (b :: rest).take (wsLen (b :: rest)) ++ tail

/-- Model of str::trim: whitespace characters (Unicode White_Space, via
wsLen) removed from both ends. -/
def trim (s : ByteStr) : ByteStr :=
  trimEndAux s.length (trimStartAux s.length s)

/-- Continuation-byte test for UTF-8 (0x80..0xBF). -/
def isCont (b : Nat) : Bool := 128 ≤ b && b ≤ 191

/-- Validity of a byte list as UTF-8, following the table used by Rust's
str::from_utf8 (overlong encodings and surrogates rejected). -/
def validUtf8 : List Nat → Bool
  | [] => true
  | b :: rest =>
    if b ≤ 127 then validUtf8 rest
    else if 194 ≤ b && b ≤ 223 then
      match rest with
      | b1 :: r => isCont b1 && validUtf8 r
      | [] => false
    else if 224 ≤ b && b ≤ 239 then
      match rest with
      | b1 :: b2 :: r =>
        (if b = 224 then 160 ≤ b1 && b1 ≤ 191
         else if b = 237 then 128 ≤ b1 && b1 ≤ 159
         else isCont b1) && isCont b2 && validUtf8 r
      | _ => false
    else if 240 ≤ b && b ≤ 244 then
      match rest with
      | b1 :: b2 :: b3 :: r =>
        (if b = 240 then 144 ≤ b1 && b1 ≤ 191
         else if b = 244 then 128 ≤ b1 && b1 ≤ 143
         else isCont b1) && isCont b2 && isCont b3 && validUtf8 r
      | _ => false
    else false

/-- Model of str::is_char_boundary for a byte index. -/
def isCharBoundary (s : ByteStr) (i : Nat) : Bool :=
  if i = 0 then true
  else match s.get? i with
    | some b => !isCont b
    | none => i = s.length

/-- Model of str::get with a from-index range (path.get(i..)): the suffix
from byte i when i is a char boundary, none otherwise. -/
def strGet (s : ByteStr) (i : Nat) : Option ByteStr :=
  if isCharBoundary s i then some (s.drop i) else none

/-- Decimal digit bytes of a natural number, with explicit fuel so the
definition is structural. -/
def natDigitsAux : Nat → Nat → ByteStr
  | 0, _ => []
  | fuel + 1, n =>
    if n < 10 then [48 + n]
    else natDigitsAux fuel (n / 10) ++ [48 + n % 10]

/-- Decimal rendering of a natural number as ASCII bytes, as produced by
the Display implementation used in format! for lengths and status codes. -/
def natDigits (n : Nat) : ByteStr := natDigitsAux (n + 1) n

/-- Digit-sequence accumulator for parseUsize. -/
def parseDigitsAcc : ByteStr → Nat → Option Nat
  | [], acc => some acc
  | b :: rest, acc =>
    if 48 ≤ b ∧ b ≤ 57 then parseDigitsAcc rest (acc * 10 + (b - 48))
    else none

/-- Model of str::parse::<usize>: an optional leading plus sign, then at
least one ASCII digit, value below 2^64. -/
def parseUsize (s : ByteStr) : Option Nat :=
  let digits := match s with
    | 43 :: rest => rest
    | _ => s
  match digits with
  | [] => none
  | _ =>
    match parseDigitsAcc digits 0 with
    | none => none
    | some n => if n < 2 ^ 64 then some n else none

/-- Status codes of the source enum HTTPStatusCode. -/
inductive HTTPStatusCode
  | OK | Created | Accepted | NoContent
  | MovedPermanently | Found | NotModified
  | BadRequest | Unauthorized | Forbidden | NotFound | MethodNotAllowed
  | RequestTimeout | Conflict | Gone | PreconditionFailed
  | PayloadTooLarge | URITooLong | UnsupportedMediaType
  deriving DecidableEq

/-- Numeric value of each status code, as in the Rust enum discriminants
(Display prints this number). -/
def HTTPStatusCode.toNat : HTTPStatusCode → Nat
  | .OK => 200 | .Created => 201 | .Accepted => 202 | .NoContent => 204
  | .MovedPermanently => 301 | .Found => 302 | .NotModified => 304
  | .BadRequest => 400 | .Unauthorized => 401 | .Forbidden => 403
  | .NotFound => 404 | .MethodNotAllowed => 405
  | .RequestTimeout => 408 | .Conflict => 409 | .Gone => 410
  | .PreconditionFailed => 412 | .PayloadTooLarge => 413
  | .URITooLong => 414 | .UnsupportedMediaType => 415

/-- Versions of the source enum HTTPVersion. -/
inductive HTTPVersion
  | V1_0 | V1_1 | V2_0
  deriving DecidableEq

/-- Model of HTTPVersion::from_str (declared in the source, never called by
the handler). -/
def HTTPVersion.fromStr (s : ByteStr) : Option HTTPVersion :=
  if s = bytes "HTTP/1.0" then some .V1_0
  else if s = bytes "HTTP/1.1" then some .V1_1
  else if s = bytes "HTTP/2.0" then some .V2_0
  else none

/-- Methods of the source enum HTTPMethod. -/
inductive HTTPMethod
  | GET | POST | PUT | DELETE | HEAD | PATCH
  deriving DecidableEq

/-- Model of HTTPMethod::from_str (declared in the source, never called by
the handler, which dispatches on the raw method string). -/
def HTTPMethod.fromStr (s : ByteStr) : Option HTTPMethod :=
  if s = bytes "GET" then some .GET
  else if s = bytes "POST" then some .POST
  else if s = bytes "PUT" then some .PUT
  else if s = bytes "DELETE" then some .DELETE
  else if s = bytes "HEAD" then some .HEAD
  else if s = bytes "PATCH" then some .PATCH
  else none

/-- The source struct HTTPResponse: status code, reason message, optional
list of preformatted header lines, optional body. -/
structure HTTPResponse where
  code : HTTPStatusCode
  message : ByteStr
  headers : Option (List ByteStr)
  body : Option ByteStr
  deriving DecidableEq

/-- Model of HTTPResponse::format: the headers string is built by pushing
each header line followed by CRLF, the body defaults to empty, and the
result follows the format string of the source (HTTP/1.1, code, message,
CRLF, headers, CRLF, body). -/
def HTTPResponse.format (r : HTTPResponse) : ByteStr :=
  let headers : ByteStr :=
    match r.headers with
    | some hv => hv.foldl (fun acc h => acc ++ h ++ [13, 10]) []
    | none => []
  let body : ByteStr :=
    match r.body with
    | some b => b
    | none => []
  bytes "HTTP/1.1 " ++ natDigits r.code.toNat ++ [32] ++ r.message
    ++ [13, 10] ++ headers ++ [13, 10] ++ body

/-- The header map built by the handler, modelling HashMap of String to
String: an association list with overwriting insert. -/
abbrev HeaderMap := List (ByteStr × ByteStr)

/-- Insert with overwrite, modelling HashMap::insert. -/
def hmInsert (m : HeaderMap) (k v : ByteStr) : HeaderMap :=
  match m with
  | [] => [(k, v)]
  | (k', v') :: rest => if k' = k then (k, v) :: rest else (k', v') :: hmInsert rest k v

/-- Lookup, modelling HashMap::get. -/
def hmGet (m : HeaderMap) (k : ByteStr) : Option ByteStr :=
  match m with
  | [] => none
  | (k', v') :: rest => if k' = k then some v' else hmGet rest k

/-- The filesystem visible to the files route: a map from full path strings
to raw file contents. -/
abbrev FS := List (ByteStr × ByteStr)

/-- Modelled from the spec: the external filesystem write primitive
fs::write creates or overwrites the file at the given path with the given
bytes. -/
def fsWrite (fs : FS) (k v : ByteStr) : FS :=
  match fs with
  | [] => [(k, v)]
  | (k', v') :: rest => if k' = k then (k, v) :: rest else (k', v') :: fsWrite rest k v

/-- Raw content of a file, if present. -/
def fsLookup (fs : FS) (k : ByteStr) : Option ByteStr :=
  match fs with
  | [] => none
  | (k', v') :: rest => if k' = k then some v' else fsLookup rest k

/-- Modelled from the spec: the external read primitive fs::read_to_string
succeeds exactly when the file exists and its content is valid UTF-8 text
(other failure causes such as permissions are outside the model). -/
def fsReadToString (fs : FS) (k : ByteStr) : Option ByteStr :=
  match fsLookup fs k with
  | none => none
  | some content => if validUtf8 content then some content else none

/-- Split a stream at the first line feed, the line keeping the line feed;
at end of stream the rest of the bytes form the line. -/
def splitAtNewline : ByteStr → ByteStr × ByteStr
  | [] => ([], [])
  | b :: rest =>
    if b = 10 then ([b], rest)
    else
      let p := splitAtNewline rest
      (b :: p.1, p.2)

/-- Model of read_line on the stream: the bytes up to and including the
first line feed (or the whole stream at end of input), failing when those
bytes are not valid UTF-8, as the Rust read_line does. -/
def readLine (stream : ByteStr) : Option (ByteStr × ByteStr) :=
  if validUtf8 (splitAtNewline stream).1 then some (splitAtNewline stream) else none

/-- Header-reading loop of handle_connection, with fuel for structural
recursion: read a line; stop on the bare CRLF line; otherwise split at the
first colon (panicking, i.e. none, when there is no colon), trim both
parts, insert into the map, and continue. -/
def parseHeadersAux : Nat → ByteStr → HeaderMap → Option (HeaderMap × ByteStr)
  | 0, _, _ => none
  | fuel + 1, stream, hm =>
    match readLine stream with
    | none => none
    | some (line, rest) =>
      if line = [13, 10] then some (hm, rest)
      else
        match splitOnce 58 line with
        | none => none
        | some (k, v) => parseHeadersAux fuel rest (hmInsert hm (trim k) (trim v))

/-- Header-reading loop of handle_connection: each read consumes at least
one byte, so length-plus-one fuel always suffices. -/
def parseHeaders (stream : ByteStr) (hm : HeaderMap) : Option (HeaderMap × ByteStr) :=
  parseHeadersAux (stream.length + 1) stream hm

/-- The dispatch match of handle_connection on the second piece of the
slash-split path, given the raw method token, the parsed headers, the
configured directory, the filesystem and the unread rest of the stream.
Returns the response together with the possibly updated filesystem, or none
when the source panics (unwrap of a failed lookup). -/
def dispatch (request path : ByteStr) (headers : HeaderMap) (directory : ByteStr)
    (fs : FS) (stream : ByteStr) : Option (HTTPResponse × FS) :=
  match (splitOn 47 path).get? 1 with
  | none => none
  | some seg =>
    if seg = bytes "echo" then
      match strGet path 6 with
      | none => none
      | some content =>
        some (⟨.OK, bytes "OK",
          some [bytes "Content-Type: text/plain",
                bytes "Content-Length: " ++ natDigits content.length],
          some content⟩, fs)
    else if seg = bytes "user-agent" then
      match hmGet headers (bytes "User-Agent") with
      | none => none
      | some useragent =>
        some (⟨.OK, bytes "OK",
          some [bytes "Content-Type: text/plain",
                bytes "Content-Length: " ++ natDigits useragent.length],
          some useragent⟩, fs)
    else if seg = bytes "files" then
      if request = bytes "GET" then
        match strGet path 7 with
        | none => none
        | some name =>
          match fsReadToString fs (directory ++ [47] ++ name) with
          | none => some (⟨.NotFound, bytes "Not Found", none, none⟩, fs)
          | some content =>
            some (⟨.OK, bytes "OK",
              some [bytes "Content-Type: application/octet-stream",
                    bytes "Content-Length: " ++ natDigits content.length],
              some content⟩, fs)
      else if request = bytes "POST" then
        match hmGet headers (bytes "Content-Length") with
        | none => none
        | some clValue =>
          match parseUsize clValue with
          | none => none
          | some conLength =>
            let body := stream.take conLength
              ++ List.replicate (conLength - stream.length) 0
            match strGet path 7 with
            | none => none
            | some name =>
              some (⟨.Created, bytes "Created", none, none⟩,
                fsWrite fs (directory ++ [47] ++ name) body)
      else some (⟨.BadRequest, bytes "Bad Request", none, none⟩, fs)
    else if seg = [] then
      some (⟨.OK, bytes "OK", none, none⟩, fs)
    else
      some (⟨.NotFound, bytes "Not Found", none, none⟩, fs)

/-- Model of handle_connection: read the request line, take the second
whitespace token as the path and the first as the method, parse the
headers, dispatch, and write the formatted response.  The result is the
bytes written back together with the final filesystem, or none when the
connection task panics before writing. -/
def handle_connection (stream : ByteStr) (directory : ByteStr) (fs : FS) :
    Option (ByteStr × FS) :=
  match readLine stream with
  | none => none
  | some (line, rest) =>
    match (splitWhitespace line).get? 1 with
    | none => none
    | some path =>
      match (splitWhitespace line).get? 0 with
      | none => none
      | some request =>
        match parseHeaders rest [] with
        | none => none
        | some (headers, rest2) =>
          match dispatch request path headers directory fs rest2 with
          | none => none
          | some (response, fs') => some (response.format, fs')

/-! ### Request construction for the statements -/

/-- First byte of the suffix is not a UTF-8 continuation byte, so that the
byte index where the suffix starts is a char boundary. -/
def headBoundaryOk : ByteStr → Bool
  | [] => true
  | b :: _ => !isCont b

/-- An ASCII byte that no whitespace character encoding starts with: below
128 and none of the six ASCII whitespace bytes.  A byte string of such
bytes tokenizes the same under the byte scan and under char-level
split_whitespace, whatever follows it on the line. -/
def tokenByte (b : Nat) : Bool :=
  b < 128 && !(b == 9) && !(b == 10) && !(b == 11) && !(b == 12)
    && !(b == 13) && !(b == 32)

/-- A byte string of ASCII non-whitespace bytes.  The theorems about whole
requests quantify over such method, path and version tokens; HTTP tokens
are ASCII on the wire, and the restriction keeps the request line's
whitespace structure independent of what surrounds each token. -/
def AsciiWsFree (s : ByteStr) : Prop := ∀ b ∈ s, tokenByte b = true

/-- A whitespace-delimited token of the request line: nonempty, ASCII and
whitespace free. -/
def IsToken (s : ByteStr) : Prop := s ≠ [] ∧ AsciiWsFree s

instance (s : ByteStr) : Decidable (AsciiWsFree s) := by
  unfold AsciiWsFree; infer_instance

instance (s : ByteStr) : Decidable (IsToken s) := by
  unfold IsToken; infer_instance

/-- The request line of a request with the given method, target path and
version tokens. -/
def requestLine (m p v : ByteStr) : ByteStr :=
  m ++ [32] ++ p ++ [32] ++ v ++ [13, 10]

/-- A full request stream: request line followed by the rest of the stream
(header section and body). -/
def mkStream (m p v rest : ByteStr) : ByteStr := requestLine m p v ++ rest

/-! ### Tokenization lemmas -/

theorem splitAtNewline_append (l r : ByteStr) (h : ∀ b ∈ l, b ≠ 10) :
    splitAtNewline (l ++ 10 :: r) = (l ++ [10], r) := by
  induction l with
  | nil => simp [splitAtNewline]
  | cons b t ih =>
    have hb : b ≠ 10 := h b (by simp)
    simp only [List.cons_append, splitAtNewline, if_neg hb, List.append_eq]
    rw [ih fun x hx => h x (by simp [hx])]

theorem wsLen_cons_ascii (b : Nat) (x : ByteStr) (hb : tokenByte b = true) :
    wsLen (b :: x) = 0 := by
  simp only [tokenByte, Bool.and_eq_true, Bool.not_eq_true', beq_eq_false_iff_ne,
    ne_eq, decide_eq_true_eq] at hb
  obtain ⟨⟨⟨⟨⟨⟨h0, h9⟩, h10⟩, h11⟩, h12⟩, h13⟩, h32⟩ := hb
  simp only [wsLen]
  rw [if_neg (by omega), if_neg (by omega), if_neg (by omega), if_neg (by omega),
    if_neg (by omega)]

theorem splitWsAux_token (t : ByteStr) (ht : AsciiWsFree t) :
    ∀ (fuel : Nat) (r acc : ByteStr),
    splitWsAux (t.length + fuel) (t ++ r) acc = splitWsAux fuel r (t.reverse ++ acc) := by
  induction t with
  | nil => intro fuel r acc; simp
  | cons b t' ih =>
    intro fuel r acc
    have hb : tokenByte b = true := ht b (by simp)
    have hws : wsLen (b :: (t' ++ r)) = 0 := wsLen_cons_ascii b _ hb
    rw [(by simp; omega : (b :: t').length + fuel = (t'.length + fuel) + 1)]
    show splitWsAux ((t'.length + fuel) + 1) ((b :: t') ++ r) acc = _
    simp only [List.cons_append, splitWsAux, hws, if_pos rfl]
    rw [ih (fun x hx => ht x (by simp [hx])) fuel r (b :: acc)]
    simp

theorem splitWsAux_sep (fuel : Nat) (r acc : ByteStr) (hacc : acc ≠ []) :
    splitWsAux (fuel + 1) (32 :: r) acc = acc.reverse :: splitWsAux fuel r [] := by
  have h1 : wsLen (32 :: r) = 1 := rfl
  simp only [splitWsAux, h1]
  simp [hacc]

theorem splitWs_requestLine (m p v : ByteStr)
    (hm : IsToken m) (hp : IsToken p) :
    splitWhitespace (requestLine m p v) =
      m :: p :: splitWsAux (v.length + 2) (v ++ [13, 10]) [] := by
  obtain ⟨hm0, hm1⟩ := hm
  obtain ⟨hp0, hp1⟩ := hp
  unfold splitWhitespace requestLine
  rw [show m ++ [32] ++ p ++ [32] ++ v ++ [13, 10]
      = m ++ (32 :: (p ++ (32 :: (v ++ [13, 10])))) by simp]
  have hlen : (m ++ (32 :: (p ++ (32 :: (v ++ [13, 10]))))).length
      = m.length + ((p.length + ((v.length + 2) + 1)) + 1) := by
    simp
    try omega
  rw [hlen]
  rw [splitWsAux_token m hm1]
  rw [splitWsAux_sep _ _ _ (by simpa using hm0)]
  rw [splitWsAux_token p hp1]
  rw [splitWsAux_sep _ _ _ (by simpa using hp0)]
  simp

/-- Pipeline lemma: on a well-formed request stream the handler is the
header parse followed by the dispatch, with the response formatted. -/
theorem handle_connection_eq (m p v rest dir : ByteStr) (fs : FS)
    (hm : IsToken m) (hp : IsToken p) (hv : AsciiWsFree v)
    (hutf : validUtf8 (requestLine m p v) = true) :
    handle_connection (mkStream m p v rest) dir fs =
      match parseHeaders rest [] with
      | none => none
      | some (hmap, rest2) =>
        match dispatch m p hmap dir fs rest2 with
        | none => none
        | some (r, fs') => some (r.format, fs') := by
  have hpre : requestLine m p v = (m ++ [32] ++ p ++ [32] ++ v ++ [13]) ++ 10 :: [] := by
    simp [requestLine]
  have hno10 : ∀ b ∈ m ++ [32] ++ p ++ [32] ++ v ++ [13], b ≠ 10 := by
    intro b hb
    simp only [List.mem_append, List.mem_singleton] at hb
    rcases hb with ((((hb | hb) | hb) | hb) | hb) | hb
    · intro h; subst h; exact absurd (hm.2 10 hb) (by decide)
    · subst hb; decide
    · intro h; subst h; exact absurd (hp.2 10 hb) (by decide)
    · subst hb; decide
    · intro h; subst h; exact absurd (hv 10 hb) (by decide)
    · subst hb; decide
  have hsplit : splitAtNewline (mkStream m p v rest) = (requestLine m p v, rest) := by
    have : mkStream m p v rest = (m ++ [32] ++ p ++ [32] ++ v ++ [13]) ++ 10 :: rest := by
      simp [mkStream, requestLine]
    rw [this, splitAtNewline_append _ _ hno10]
    simp [requestLine]
  have hread : readLine (mkStream m p v rest) = some (requestLine m p v, rest) := by
    unfold readLine
    rw [hsplit]
    simp [hutf]
  unfold handle_connection
  rw [hread]
  simp only [splitWs_requestLine m p v hm hp]
  rfl

/-! ### Map lemmas -/

theorem hmGet_hmInsert (hm : HeaderMap) (k v : ByteStr) :
    hmGet (hmInsert hm k v) k = some v := by
  induction hm with
  | nil => simp [hmInsert, hmGet]
  | cons kv rest ih =>
    obtain ⟨k', v'⟩ := kv
    by_cases h : k' = k
    · simp [hmInsert, hmGet, h]
    · simp [hmInsert, hmGet, h, ih]

theorem fsLookup_fsWrite (fs : FS) (k v : ByteStr) :
    fsLookup (fsWrite fs k v) k = some v := by
  induction fs with
  | nil => simp [fsWrite, fsLookup]
  | cons kv rest ih =>
    obtain ⟨k', v'⟩ := kv
    by_cases h : k' = k
    · simp [fsWrite, fsLookup, h]
    · simp [fsWrite, fsLookup, h, ih]

/-! ### splitOnce lemmas -/

theorem splitOnce_first (k r : ByteStr) (hk : ∀ b ∈ k, b ≠ 58) :
    splitOnce 58 (k ++ 58 :: r) = some (k, r) := by
  induction k with
  | nil => simp [splitOnce]
  | cons b t ih =>
    have hb : b ≠ 58 := hk b (by simp)
    simp only [List.cons_append, splitOnce, if_neg hb, List.append_eq]
    rw [ih fun x hx => hk x (by simp [hx])]
    rfl

theorem splitOnce_of_no_sep (s : ByteStr) (h : ∀ b ∈ s, b ≠ 58) :
    splitOnce 58 s = none := by
  induction s with
  | nil => rfl
  | cons b t ih =>
    have hb : b ≠ 58 := h b (by simp)
    simp only [splitOnce, if_neg hb]
    rw [ih fun x hx => h x (by simp [hx])]
    rfl

/-! ### splitAtNewline structure lemmas -/

theorem splitAtNewline_parts (s : ByteStr) :
    (splitAtNewline s).1 ++ (splitAtNewline s).2 = s := by
  induction s with
  | nil => rfl
  | cons b t ih =>
    by_cases hb : b = 10
    · simp [splitAtNewline, hb]
    · simp only [splitAtNewline, if_neg hb, List.cons_append]
      rw [ih]

theorem splitAtNewline_fst_nonempty (b : Nat) (t : ByteStr) :
    (splitAtNewline (b :: t)).1 ≠ [] := by
  by_cases hb : b = 10 <;> simp [splitAtNewline, hb]

/-! ### Fuel irrelevance for the header loop -/

theorem parseHeadersAux_succ (fuel : Nat) (s : ByteStr) (hm : HeaderMap) :
    parseHeadersAux (fuel + 1) s hm =
      match readLine s with
      | none => none
      | some (line, rest) =>
        if line = [13, 10] then some (hm, rest)
        else
          match splitOnce 58 line with
          | none => none
          | some (k, v) => parseHeadersAux fuel rest (hmInsert hm (trim k) (trim v)) := rfl

theorem parseHeadersAux_fuel (f1 : Nat) : ∀ (f2 : Nat) (s : ByteStr) (hm : HeaderMap),
    s.length < f1 → s.length < f2 →
    parseHeadersAux f1 s hm = parseHeadersAux f2 s hm := by
  induction f1 with
  | zero => intro f2 s hm h1 h2; omega
  | succ n ih =>
    intro f2 s hm h1 h2
    cases f2 with
    | zero => omega
    | succ m =>
      rw [parseHeadersAux_succ, parseHeadersAux_succ]
      cases hr : readLine s with
      | none => rfl
      | some pr =>
        obtain ⟨line, rest⟩ := pr
        have hsome : splitAtNewline s = (line, rest) := by
          unfold readLine at hr
          by_cases hv : validUtf8 (splitAtNewline s).1 = true
          · rw [if_pos hv] at hr
            exact Option.some.inj hr
          · rw [if_neg hv] at hr
            exact Option.noConfusion hr
        have hl1 : line = (splitAtNewline s).1 := by rw [hsome]
        have hl2 : rest = (splitAtNewline s).2 := by rw [hsome]
        have hparts : line ++ rest = s := by
          rw [hl1, hl2]; exact splitAtNewline_parts s
        show (if line = [13, 10] then some (hm, rest)
            else match splitOnce 58 line with
              | none => none
              | some (k, v) => parseHeadersAux n rest (hmInsert hm (trim k) (trim v))) =
          (if line = [13, 10] then some (hm, rest)
            else match splitOnce 58 line with
              | none => none
              | some (k, v) => parseHeadersAux m rest (hmInsert hm (trim k) (trim v)))
        by_cases hcrlf : line = [13, 10]
        · simp [hcrlf]
        · rw [if_neg hcrlf, if_neg hcrlf]
          cases hso : splitOnce 58 line with
          | none => rfl
          | some kv =>
            obtain ⟨a, c⟩ := kv
            have hlinene : line ≠ [] := by
              intro h
              subst h
              simp [splitOnce] at hso
            have hlen := congrArg List.length hparts
            simp only [List.length_append] at hlen
            have h0 : 0 < line.length := List.length_pos.mpr hlinene
            exact ih m rest _ (by omega) (by omega)

/-! ### Header loop behavior -/

theorem parseHeaders_end (rest : ByteStr) (hm : HeaderMap) :
    parseHeaders ([13, 10] ++ rest) hm = some (hm, rest) := rfl

theorem parseHeaders_step (k v rest : ByteStr) (hm : HeaderMap)
    (hk58 : ∀ b ∈ k, b ≠ 58) (hk10 : ∀ b ∈ k, b ≠ 10) (hv10 : ∀ b ∈ v, b ≠ 10)
    (hutf : validUtf8 (k ++ (58 :: (v ++ [13, 10]))) = true) :
    parseHeaders ((k ++ (58 :: (v ++ [13, 10]))) ++ rest) hm =
      parseHeaders rest (hmInsert hm (trim k) (trim (v ++ [13, 10]))) := by
  have hno10 : ∀ b ∈ k ++ (58 :: (v ++ [13])), b ≠ 10 := by
    intro b hb heq
    subst heq
    have hb' : (10 : Nat) ∈ k ∨ (10 : Nat) ∈ v := by simpa using hb
    rcases hb' with h | h
    · exact hk10 10 h rfl
    · exact hv10 10 h rfl
  have hsplit : splitAtNewline ((k ++ (58 :: (v ++ [13, 10]))) ++ rest)
      = ((k ++ (58 :: (v ++ [13]))) ++ [10], rest) := by
    have harr : (k ++ (58 :: (v ++ [13, 10]))) ++ rest
        = (k ++ (58 :: (v ++ [13]))) ++ 10 :: rest := by simp
    rw [harr, splitAtNewline_append _ _ hno10]
  have hline2 : (k ++ (58 :: (v ++ [13]))) ++ [10] = k ++ (58 :: (v ++ [13, 10])) := by
    simp
  have hread : readLine ((k ++ (58 :: (v ++ [13, 10]))) ++ rest)
      = some (k ++ (58 :: (v ++ [13, 10])), rest) := by
    unfold readLine
    rw [hsplit]
    simp only [hline2, hutf, if_pos]
  have hnecrlf : k ++ (58 :: (v ++ [13, 10])) ≠ [13, 10] := by
    intro h
    have := congrArg List.length h
    simp only [List.length_append, List.length_cons, List.length_nil] at this
    omega
  have hso : splitOnce 58 (k ++ (58 :: (v ++ [13, 10]))) = some (k, v ++ [13, 10]) :=
    splitOnce_first k (v ++ [13, 10]) hk58
  have hfuel1 : rest.length < ((k ++ (58 :: (v ++ [13, 10]))) ++ rest).length := by
    simp only [List.length_append, List.length_cons]
    omega
  unfold parseHeaders
  rw [parseHeadersAux_succ, hread]
  show (if (k ++ (58 :: (v ++ [13, 10]))) = [13, 10] then some (hm, rest)
      else match splitOnce 58 (k ++ (58 :: (v ++ [13, 10]))) with
        | none => none
        | some (a, c) =>
          parseHeadersAux ((k ++ (58 :: (v ++ [13, 10]))) ++ rest).length rest
            (hmInsert hm (trim a) (trim c))) =
    parseHeadersAux (rest.length + 1) rest (hmInsert hm (trim k) (trim (v ++ [13, 10])))
  rw [if_neg hnecrlf, hso]
  exact parseHeadersAux_fuel _ _ rest _ hfuel1 (Nat.lt_succ_self _)

theorem parseHeaders_nocolon (l rest : ByteStr) (hm : HeaderMap)
    (h58 : ∀ b ∈ l, b ≠ 58) (h10 : ∀ b ∈ l, b ≠ 10) (hne : l ≠ [13]) :
    parseHeaders ((l ++ [10]) ++ rest) hm = none := by
  have hsplit : splitAtNewline ((l ++ [10]) ++ rest) = (l ++ [10], rest) := by
    have harr : (l ++ [10]) ++ rest = l ++ 10 :: rest := by simp
    rw [harr, splitAtNewline_append _ _ h10]
  unfold parseHeaders
  rw [parseHeadersAux_succ]
  unfold readLine
  rw [hsplit]
  by_cases hvu : validUtf8 (l ++ [10]) = true
  · have hnecrlf : l ++ [10] ≠ [13, 10] := by
      intro h
      exact hne (List.append_cancel_right (h.trans rfl : l ++ [10] = [13] ++ [10]))
    have hso : splitOnce 58 (l ++ [10]) = none := by
      apply splitOnce_of_no_sep
      intro b hb
      rcases List.mem_append.mp hb with hb | hb
      · exact h58 b hb
      · simp only [List.mem_singleton] at hb; subst hb; decide
    simp [hvu, hnecrlf, hso]
  · simp [hvu]

/-! ### Dispatch behavior -/

theorem splitOn_echo (s : ByteStr) :
    (splitOn 47 (bytes "/echo/" ++ s)).get? 1 = some (bytes "echo") := by
  show (splitOn 47 ([47, 101, 99, 104, 111, 47] ++ s)).get? 1 = some (bytes "echo")
  simp [splitOn, splitOnAux]
  rfl

theorem strGet_echo (s : ByteStr) (hb : headBoundaryOk s = true) :
    strGet (bytes "/echo/" ++ s) 6 = some s := by
  cases s with
  | nil => decide
  | cons b t =>
    show strGet ([47, 101, 99, 104, 111, 47] ++ (b :: t)) 6 = some (b :: t)
    have hcb : isCharBoundary ([47, 101, 99, 104, 111, 47] ++ (b :: t)) 6 = !isCont b := rfl
    have hdrop : ([47, 101, 99, 104, 111, 47] ++ (b :: t) : ByteStr).drop 6 = b :: t := rfl
    have hbc : (!isCont b) = true := hb
    unfold strGet
    rw [hcb, hbc, if_pos rfl, hdrop]

theorem splitOn_files (s : ByteStr) :
    (splitOn 47 (bytes "/files/" ++ s)).get? 1 = some (bytes "files") := by
  show (splitOn 47 ([47, 102, 105, 108, 101, 115, 47] ++ s)).get? 1 = some (bytes "files")
  simp [splitOn, splitOnAux]
  rfl

theorem strGet_files (s : ByteStr) (hb : headBoundaryOk s = true) :
    strGet (bytes "/files/" ++ s) 7 = some s := by
  cases s with
  | nil => decide
  | cons b t =>
    show strGet ([47, 102, 105, 108, 101, 115, 47] ++ (b :: t)) 7 = some (b :: t)
    have hcb : isCharBoundary ([47, 102, 105, 108, 101, 115, 47] ++ (b :: t)) 7 = !isCont b := rfl
    have hdrop : ([47, 102, 105, 108, 101, 115, 47] ++ (b :: t) : ByteStr).drop 7 = b :: t := rfl
    have hbc : (!isCont b) = true := hb
    unfold strGet
    rw [hcb, hbc, if_pos rfl, hdrop]

theorem dispatch_echo (m s : ByteStr) (hmap : HeaderMap) (dir : ByteStr) (fs : FS) (st : ByteStr)
    (hb : headBoundaryOk s = true) :
    dispatch m (bytes "/echo/" ++ s) hmap dir fs st =
      some (⟨.OK, bytes "OK",
        some [bytes "Content-Type: text/plain",
              bytes "Content-Length: " ++ natDigits s.length],
        some s⟩, fs) := by
  unfold dispatch
  rw [splitOn_echo s]
  show (match strGet (bytes "/echo/" ++ s) 6 with
    | none => none
    | some content =>
      some ((⟨.OK, bytes "OK",
        some [bytes "Content-Type: text/plain",
              bytes "Content-Length: " ++ natDigits content.length],
        some content⟩ : HTTPResponse), fs)) = _
  rw [strGet_echo s hb]

theorem dispatch_user_agent (m : ByteStr) (hmap : HeaderMap) (dir : ByteStr) (fs : FS)
    (st : ByteStr) :
    dispatch m (bytes "/user-agent") hmap dir fs st =
      match hmGet hmap (bytes "User-Agent") with
      | none => none
      | some useragent =>
        some (⟨.OK, bytes "OK",
          some [bytes "Content-Type: text/plain",
                bytes "Content-Length: " ++ natDigits useragent.length],
          some useragent⟩, fs) := rfl

theorem dispatch_files_get (name : ByteStr) (hmap : HeaderMap) (dir : ByteStr) (fs : FS)
    (st : ByteStr) (hb : headBoundaryOk name = true) :
    dispatch (bytes "GET") (bytes "/files/" ++ name) hmap dir fs st =
      match fsReadToString fs ((dir ++ [47]) ++ name) with
      | none => some (⟨.NotFound, bytes "Not Found", none, none⟩, fs)
      | some content =>
        some (⟨.OK, bytes "OK",
          some [bytes "Content-Type: application/octet-stream",
                bytes "Content-Length: " ++ natDigits content.length],
          some content⟩, fs) := by
  unfold dispatch
  rw [splitOn_files name]
  show (match strGet (bytes "/files/" ++ name) 7 with
    | none => none
    | some nm =>
      match fsReadToString fs ((dir ++ [47]) ++ nm) with
      | none => some ((⟨.NotFound, bytes "Not Found", none, none⟩ : HTTPResponse), fs)
      | some content =>
        some ((⟨.OK, bytes "OK",
          some [bytes "Content-Type: application/octet-stream",
                bytes "Content-Length: " ++ natDigits content.length],
          some content⟩ : HTTPResponse), fs)) = _
  rw [strGet_files name hb]

theorem dispatch_files_post (name clv : ByteStr) (hmap : HeaderMap) (dir : ByteStr) (fs : FS)
    (st : ByteStr) (n : Nat)
    (hb : headBoundaryOk name = true)
    (hcl : hmGet hmap (bytes "Content-Length") = some clv)
    (hn : parseUsize clv = some n) :
    dispatch (bytes "POST") (bytes "/files/" ++ name) hmap dir fs st =
      some (⟨.Created, bytes "Created", none, none⟩,
        fsWrite fs ((dir ++ [47]) ++ name)
          (st.take n ++ List.replicate (n - st.length) 0)) := by
  unfold dispatch
  rw [splitOn_files name]
  show (match hmGet hmap (bytes "Content-Length") with
    | none => none
    | some clValue =>
      match parseUsize clValue with
      | none => none
      | some conLength =>
        match strGet (bytes "/files/" ++ name) 7 with
        | none => none
        | some nm =>
          some ((⟨.Created, bytes "Created", none, none⟩ : HTTPResponse),
            fsWrite fs ((dir ++ [47]) ++ nm)
              (st.take conLength ++ List.replicate (conLength - st.length) 0))) = _
  rw [hcl]
  show (match parseUsize clv with
    | none => none
    | some conLength =>
      match strGet (bytes "/files/" ++ name) 7 with
      | none => none
      | some nm =>
        some ((⟨.Created, bytes "Created", none, none⟩ : HTTPResponse),
          fsWrite fs ((dir ++ [47]) ++ nm)
            (st.take conLength ++ List.replicate (conLength - st.length) 0))) = _
  rw [hn]
  show (match strGet (bytes "/files/" ++ name) 7 with
    | none => none
    | some nm =>
      some ((⟨.Created, bytes "Created", none, none⟩ : HTTPResponse),
        fsWrite fs ((dir ++ [47]) ++ nm)
          (st.take n ++ List.replicate (n - st.length) 0))) = _
  rw [strGet_files name hb]

theorem dispatch_files_badmethod (request p : ByteStr) (hmap : HeaderMap) (dir : ByteStr)
    (fs : FS) (st : ByteStr)
    (hseg : (splitOn 47 p).get? 1 = some (bytes "files"))
    (hG : request ≠ bytes "GET") (hP : request ≠ bytes "POST") :
    dispatch request p hmap dir fs st =
      some (⟨.BadRequest, bytes "Bad Request", none, none⟩, fs) := by
  unfold dispatch
  rw [hseg]
  show (if request = bytes "GET" then
      match strGet p 7 with
      | none => none
      | some name =>
        match fsReadToString fs ((dir ++ [47]) ++ name) with
        | none => some ((⟨.NotFound, bytes "Not Found", none, none⟩ : HTTPResponse), fs)
        | some content =>
          some ((⟨.OK, bytes "OK",
            some [bytes "Content-Type: application/octet-stream",
                  bytes "Content-Length: " ++ natDigits content.length],
            some content⟩ : HTTPResponse), fs)
    else if request = bytes "POST" then
      match hmGet hmap (bytes "Content-Length") with
      | none => none
      | some clValue =>
        match parseUsize clValue with
        | none => none
        | some conLength =>
          match strGet p 7 with
          | none => none
          | some name =>
            some ((⟨.Created, bytes "Created", none, none⟩ : HTTPResponse),
              fsWrite fs ((dir ++ [47]) ++ name)
                (st.take conLength ++ List.replicate (conLength - st.length) 0))
    else some ((⟨.BadRequest, bytes "Bad Request", none, none⟩ : HTTPResponse), fs)) = _
  rw [if_neg hG, if_neg hP]

theorem dispatch_root (m : ByteStr) (hmap : HeaderMap) (dir : ByteStr) (fs : FS)
    (st : ByteStr) :
    dispatch m (bytes "/") hmap dir fs st = some (⟨.OK, bytes "OK", none, none⟩, fs) := rfl

theorem dispatch_unknown (request p seg : ByteStr) (hmap : HeaderMap) (dir : ByteStr)
    (fs : FS) (st : ByteStr)
    (hseg : (splitOn 47 p).get? 1 = some seg)
    (h1 : seg ≠ bytes "echo") (h2 : seg ≠ bytes "user-agent")
    (h3 : seg ≠ bytes "files") (h4 : seg ≠ []) :
    dispatch request p hmap dir fs st =
      some (⟨.NotFound, bytes "Not Found", none, none⟩, fs) := by
  unfold dispatch
  rw [hseg]
  simp [h1, h2, h3, h4]

theorem dispatch_echo_noslash (m : ByteStr) (hmap : HeaderMap) (dir : ByteStr) (fs : FS)
    (st : ByteStr) :
    dispatch m (bytes "/echo") hmap dir fs st = none := rfl

theorem dispatch_files_noslash (hmap : HeaderMap) (dir : ByteStr) (fs : FS)
    (st : ByteStr) :
    dispatch (bytes "GET") (bytes "/files") hmap dir fs st = none := rfl

theorem dispatch_req_indep (m1 m2 p : ByteStr) (hmap : HeaderMap) (dir : ByteStr)
    (fs : FS) (st : ByteStr)
    (h : (splitOn 47 p).get? 1 ≠ some (bytes "files")) :
    dispatch m1 p hmap dir fs st = dispatch m2 p hmap dir fs st := by
  unfold dispatch
  cases hseg : (splitOn 47 p).get? 1 with
  | none => rfl
  | some seg =>
    by_cases h1 : seg = bytes "echo"
    · simp [h1]
    · by_cases h2 : seg = bytes "user-agent"
      · simp [h1, h2]
      · by_cases h3 : seg = bytes "files"
        · subst h3; exact absurd hseg h
        · simp [h1, h2, h3]

/-! ### Claim theorems -/

theorem foldl_headers (hv : List ByteStr) : ∀ acc : ByteStr,
    hv.foldl (fun a h => a ++ (h ++ [13, 10])) acc
      = acc ++ (hv.map fun h => h ++ [13, 10]).flatten := by
  induction hv with
  | nil => intro acc; simp
  | cons h t ih =>
    intro acc
    simp only [List.foldl_cons, List.map_cons, List.flatten, ih]
    simp

/-- C4: serialization of a response produces exactly the HTTP/1.1 status
line with code and reason, each header line suffixed with CRLF, a bare
CRLF, then the body or nothing; no headers means zero header lines, no
body means nothing after the blank line, and the emitted version is always
HTTP/1.1. -/
theorem response_format_spec (r : HTTPResponse) :
    r.format =
      bytes "HTTP/1.1 " ++ natDigits r.code.toNat ++ bytes " " ++ r.message
        ++ bytes "\r\n"
        ++ (match r.headers with
            | some hv => (hv.map fun h => h ++ bytes "\r\n").flatten
            | none => [])
        ++ bytes "\r\n"
        ++ (match r.body with
            | some b => b
            | none => []) := by
  have h1 : bytes "\r\n" = [13, 10] := rfl
  have h2 : bytes " " = [32] := rfl
  unfold HTTPResponse.format
  cases hh : r.headers with
  | none => cases hb : r.body <;> simp [h1, h2]
  | some hv => cases hb : r.body <;> simp [h1, h2, foldl_headers]


theorem wsFree_append (a b : ByteStr) (ha : AsciiWsFree a) (hb : AsciiWsFree b) :
    AsciiWsFree (a ++ b) := by
  intro x hx
  rcases List.mem_append.mp hx with h | h
  · exact ha x h
  · exact hb x h

/-- C1: a request whose target path is /echo/<s> is answered 200 OK with
exactly the headers Content-Type text/plain and Content-Length the byte
length of s, and body s, where s is the path content after its first 6
bytes, not URL-decoded. -/
theorem echo_route_ok (m s v rest rest2 dir : ByteStr) (fs : FS) (hmap : HeaderMap)
    (hm : IsToken m) (hs : AsciiWsFree s) (hv : AsciiWsFree v)
    (hb : headBoundaryOk s = true)
    (hutf : validUtf8 (requestLine m (bytes "/echo/" ++ s) v) = true)
    (hhdrs : parseHeaders rest [] = some (hmap, rest2)) :
    handle_connection (mkStream m (bytes "/echo/" ++ s) v rest) dir fs =
      some ((HTTPResponse.mk .OK (bytes "OK")
        (some [bytes "Content-Type: text/plain",
               bytes "Content-Length: " ++ natDigits s.length])
        (some s)).format, fs) := by
  have hp : IsToken (bytes "/echo/" ++ s) :=
    ⟨by simp [bytes], wsFree_append _ _ (by decide) hs⟩
  rw [handle_connection_eq m _ v rest dir fs hm hp hv hutf, hhdrs]
  show (match dispatch m (bytes "/echo/" ++ s) hmap dir fs rest2 with
    | none => none
    | some (r, fs') => some (r.format, fs')) = _
  rw [dispatch_echo m s hmap dir fs rest2 hb]

theorem echo_route_ok_witness :
    handle_connection
        (mkStream (bytes "GET") (bytes "/echo/" ++ bytes "a%20b") (bytes "HTTP/1.1")
          (bytes "\r\n")) (bytes "d") [] =
      some ((HTTPResponse.mk .OK (bytes "OK")
        (some [bytes "Content-Type: text/plain",
               bytes "Content-Length: " ++ natDigits (bytes "a%20b").length])
        (some (bytes "a%20b"))).format, []) :=
  echo_route_ok (bytes "GET") (bytes "a%20b") (bytes "HTTP/1.1") (bytes "\r\n") []
    (bytes "d") [] [] (by decide) (by decide) (by decide) (by decide) (by decide) (by decide)


/-- C3: a GET request for /files/<name> is answered 404 Not Found with no
headers and no body when reading the file fails, and 200 OK with
Content-Type application/octet-stream, Content-Length the content length
and the file content as body when it succeeds. -/
theorem files_get_ok (name v rest rest2 dir : ByteStr) (fs : FS) (hmap : HeaderMap)
    (hname : AsciiWsFree name) (hv : AsciiWsFree v)
    (hb : headBoundaryOk name = true)
    (hutf : validUtf8 (requestLine (bytes "GET") (bytes "/files/" ++ name) v) = true)
    (hhdrs : parseHeaders rest [] = some (hmap, rest2)) :
    handle_connection (mkStream (bytes "GET") (bytes "/files/" ++ name) v rest) dir fs =
      match fsReadToString fs ((dir ++ [47]) ++ name) with
      | none => some (bytes "HTTP/1.1 404 Not Found\r\n\r\n", fs)
      | some content =>
        some ((HTTPResponse.mk .OK (bytes "OK")
          (some [bytes "Content-Type: application/octet-stream",
                 bytes "Content-Length: " ++ natDigits content.length])
          (some content)).format, fs) := by
  have hp : IsToken (bytes "/files/" ++ name) :=
    ⟨by simp [bytes], wsFree_append _ _ (by decide) hname⟩
  rw [handle_connection_eq _ _ v rest dir fs (by decide) hp hv hutf, hhdrs]
  show (match dispatch (bytes "GET") (bytes "/files/" ++ name) hmap dir fs rest2 with
    | none => none
    | some (r, fs') => some (r.format, fs')) = _
  rw [dispatch_files_get name hmap dir fs rest2 hb]
  cases fsReadToString fs ((dir ++ [47]) ++ name) <;> rfl

theorem files_get_ok_witness :
    handle_connection
        (mkStream (bytes "GET") (bytes "/files/" ++ bytes "x") (bytes "HTTP/1.1")
          (bytes "\r\n")) (bytes "d") [(bytes "d/x", bytes "hi")] =
      some (bytes "HTTP/1.1 200 OK\r\nContent-Type: application/octet-stream\r\nContent-Length: 2\r\n\r\nhi",
        [(bytes "d/x", bytes "hi")]) :=
  files_get_ok (bytes "x") (bytes "HTTP/1.1") (bytes "\r\n") [] (bytes "d")
    [(bytes "d/x", bytes "hi")] [] (by decide) (by decide) (by decide) (by decide) (by decide)

/-- C5: a request for /user-agent whose parsed headers contain User-Agent
is answered 200 OK with Content-Type text/plain, Content-Length the byte
length of the header value, and the verbatim value as body; when the
header is absent the task panics and writes no response. -/
theorem user_agent_route (m v rest rest2 dir : ByteStr) (fs : FS) (hmap : HeaderMap)
    (hm : IsToken m) (hv : AsciiWsFree v)
    (hutf : validUtf8 (requestLine m (bytes "/user-agent") v) = true)
    (hhdrs : parseHeaders rest [] = some (hmap, rest2)) :
    (∀ u, hmGet hmap (bytes "User-Agent") = some u →
      handle_connection (mkStream m (bytes "/user-agent") v rest) dir fs =
        some ((HTTPResponse.mk .OK (bytes "OK")
          (some [bytes "Content-Type: text/plain",
                 bytes "Content-Length: " ++ natDigits u.length])
          (some u)).format, fs))
    ∧ (hmGet hmap (bytes "User-Agent") = none →
      handle_connection (mkStream m (bytes "/user-agent") v rest) dir fs = none) := by
  have hmain : handle_connection (mkStream m (bytes "/user-agent") v rest) dir fs =
      match hmGet hmap (bytes "User-Agent") with
      | none => none
      | some u =>
        some ((HTTPResponse.mk .OK (bytes "OK")
          (some [bytes "Content-Type: text/plain",
                 bytes "Content-Length: " ++ natDigits u.length])
          (some u)).format, fs) := by
    rw [handle_connection_eq m _ v rest dir fs hm (by decide) hv hutf, hhdrs]
    show (match dispatch m (bytes "/user-agent") hmap dir fs rest2 with
      | none => none
      | some (r, fs') => some (r.format, fs')) = _
    rw [dispatch_user_agent m hmap dir fs rest2]
    cases hmGet hmap (bytes "User-Agent") <;> rfl
  constructor
  · intro u hu
    rw [hmain, hu]
  · intro hu
    rw [hmain, hu]

theorem user_agent_route_witness :
    handle_connection
        (mkStream (bytes "GET") (bytes "/user-agent") (bytes "HTTP/1.1")
          (bytes "User-Agent: curl/7.64.1\r\n\r\n")) (bytes "d") [] =
      some ((HTTPResponse.mk .OK (bytes "OK")
        (some [bytes "Content-Type: text/plain",
               bytes "Content-Length: " ++ natDigits (bytes "curl/7.64.1").length])
        (some (bytes "curl/7.64.1"))).format, []) :=
  (user_agent_route (bytes "GET") (bytes "HTTP/1.1")
    (bytes "User-Agent: curl/7.64.1\r\n\r\n") []
    (bytes "d") [] [(bytes "User-Agent", bytes "curl/7.64.1")]
    (by decide) (by decide) (by decide) (by decide)).1 (bytes "curl/7.64.1") (by decide)


/-- C6: a request for the bare path / is answered 200 OK with no headers
and no body, a request whose first slash-delimited path segment matches no
route is answered 404 Not Found with no headers and no body, and the
concrete request GET /nonexistent HTTP/1.1 yields exactly the bytes of
HTTP/1.1 404 Not Found followed by the blank line. -/
theorem root_and_unknown_routes (m p v rest rest2 seg dir : ByteStr) (fs : FS)
    (hmap : HeaderMap) :
    (IsToken m → AsciiWsFree v →
      validUtf8 (requestLine m (bytes "/") v) = true →
      parseHeaders rest [] = some (hmap, rest2) →
      handle_connection (mkStream m (bytes "/") v rest) dir fs
        = some (bytes "HTTP/1.1 200 OK\r\n\r\n", fs))
    ∧ (IsToken m → IsToken p → AsciiWsFree v →
      validUtf8 (requestLine m p v) = true →
      parseHeaders rest [] = some (hmap, rest2) →
      (splitOn 47 p).get? 1 = some seg →
      seg ≠ bytes "echo" → seg ≠ bytes "user-agent" → seg ≠ bytes "files" → seg ≠ [] →
      handle_connection (mkStream m p v rest) dir fs
        = some (bytes "HTTP/1.1 404 Not Found\r\n\r\n", fs))
    ∧ handle_connection (bytes "GET /nonexistent HTTP/1.1\r\n\r\n") dir fs
        = some (bytes "HTTP/1.1 404 Not Found\r\n\r\n", fs) := by
  refine ⟨?_, ?_, ?_⟩
  · intro hm hv hutf hhdrs
    rw [handle_connection_eq m _ v rest dir fs hm (by decide) hv hutf, hhdrs]
    show (match dispatch m (bytes "/") hmap dir fs rest2 with
      | none => none
      | some (r, fs') => some (r.format, fs')) = _
    rw [dispatch_root m hmap dir fs rest2]
    rfl
  · intro hm hp hv hutf hhdrs hseg h1 h2 h3 h4
    rw [handle_connection_eq m p v rest dir fs hm hp hv hutf, hhdrs]
    show (match dispatch m p hmap dir fs rest2 with
      | none => none
      | some (r, fs') => some (r.format, fs')) = _
    rw [dispatch_unknown m p seg hmap dir fs rest2 hseg h1 h2 h3 h4]
    rfl
  · rw [show (bytes "GET /nonexistent HTTP/1.1\r\n\r\n")
        = mkStream (bytes "GET") (bytes "/nonexistent") (bytes "HTTP/1.1") [13, 10] from rfl]
    rw [handle_connection_eq _ _ _ _ dir fs (by decide) (by decide) (by decide) (by decide)]
    rw [show parseHeaders [13, 10] [] = some ([], []) from rfl]
    show (match dispatch (bytes "GET") (bytes "/nonexistent") [] dir fs [] with
      | none => none
      | some (r, fs') => some (r.format, fs')) = _
    rw [dispatch_unknown (bytes "GET") (bytes "/nonexistent") (bytes "nonexistent")
      [] dir fs [] (by decide) (by decide) (by decide) (by decide) (by decide)]
    rfl

theorem root_and_unknown_routes_witness :
    handle_connection
        (mkStream (bytes "GET") (bytes "/") (bytes "HTTP/1.1") (bytes "\r\n"))
        (bytes "d") [] = some (bytes "HTTP/1.1 200 OK\r\n\r\n", [])
    ∧ handle_connection
        (mkStream (bytes "GET") (bytes "/abc") (bytes "HTTP/1.1") (bytes "\r\n"))
        (bytes "d") [] = some (bytes "HTTP/1.1 404 Not Found\r\n\r\n", []) :=
  ⟨(root_and_unknown_routes (bytes "GET") (bytes "/abc") (bytes "HTTP/1.1") (bytes "\r\n")
      [] (bytes "abc") (bytes "d") [] []).1 (by decide) (by decide) (by decide) (by decide),
   (root_and_unknown_routes (bytes "GET") (bytes "/abc") (bytes "HTTP/1.1") (bytes "\r\n")
      [] (bytes "abc") (bytes "d") [] []).2.1 (by decide) (by decide) (by decide) (by decide)
      (by decide) (by decide) (by decide) (by decide) (by decide) (by decide)⟩

/-- C8: a request whose first slash-delimited path segment is files and
whose raw method token is neither GET nor POST is answered 400 Bad Request
with no headers and no body. -/
theorem files_bad_method (m p v rest rest2 dir : ByteStr) (fs : FS) (hmap : HeaderMap)
    (hm : IsToken m) (hp : IsToken p) (hv : AsciiWsFree v)
    (hG : m ≠ bytes "GET") (hP : m ≠ bytes "POST")
    (hseg : (splitOn 47 p).get? 1 = some (bytes "files"))
    (hutf : validUtf8 (requestLine m p v) = true)
    (hhdrs : parseHeaders rest [] = some (hmap, rest2)) :
    handle_connection (mkStream m p v rest) dir fs
      = some (bytes "HTTP/1.1 400 Bad Request\r\n\r\n", fs) := by
  rw [handle_connection_eq m p v rest dir fs hm hp hv hutf, hhdrs]
  show (match dispatch m p hmap dir fs rest2 with
    | none => none
    | some (r, fs') => some (r.format, fs')) = _
  rw [dispatch_files_badmethod m p hmap dir fs rest2 hseg hG hP]
  rfl

theorem files_bad_method_witness :
    handle_connection
        (mkStream (bytes "PUT") (bytes "/files/x") (bytes "HTTP/1.1") (bytes "\r\n"))
        (bytes "d") [] = some (bytes "HTTP/1.1 400 Bad Request\r\n\r\n", []) :=
  files_bad_method (bytes "PUT") (bytes "/files/x") (bytes "HTTP/1.1") (bytes "\r\n")
    [] (bytes "d") [] [] (by decide) (by decide) (by decide) (by decide) (by decide)
    (by decide) (by decide) (by decide)

/-- C10: a request for the exact path /echo, or for the exact path /files
with method GET, makes the handler unwrap a failed substring lookup and
abort without writing any response, although the dispatch segment of each
path matches a known route. -/
theorem short_path_aborts (m v rest rest2 dir : ByteStr) (fs : FS) (hmap : HeaderMap) :
    (IsToken m → AsciiWsFree v →
      validUtf8 (requestLine m (bytes "/echo") v) = true →
      parseHeaders rest [] = some (hmap, rest2) →
      handle_connection (mkStream m (bytes "/echo") v rest) dir fs = none)
    ∧ (AsciiWsFree v →
      validUtf8 (requestLine (bytes "GET") (bytes "/files") v) = true →
      parseHeaders rest [] = some (hmap, rest2) →
      handle_connection (mkStream (bytes "GET") (bytes "/files") v rest) dir fs = none)
    ∧ (splitOn 47 (bytes "/echo")).get? 1 = some (bytes "echo")
    ∧ (splitOn 47 (bytes "/files")).get? 1 = some (bytes "files") := by
  refine ⟨?_, ?_, by decide, by decide⟩
  · intro hm hv hutf hhdrs
    rw [handle_connection_eq m _ v rest dir fs hm (by decide) hv hutf, hhdrs]
    show (match dispatch m (bytes "/echo") hmap dir fs rest2 with
      | none => none
      | some (r, fs') => some (r.format, fs')) = _
    rw [dispatch_echo_noslash m hmap dir fs rest2]
  · intro hv hutf hhdrs
    rw [handle_connection_eq _ _ v rest dir fs (by decide) (by decide) hv hutf, hhdrs]
    show (match dispatch (bytes "GET") (bytes "/files") hmap dir fs rest2 with
      | none => none
      | some (r, fs') => some (r.format, fs')) = _
    rw [dispatch_files_noslash hmap dir fs rest2]

theorem short_path_aborts_witness :
    handle_connection
        (mkStream (bytes "GET") (bytes "/echo") (bytes "HTTP/1.1") (bytes "\r\n"))
        (bytes "d") [] = none
    ∧ handle_connection
        (mkStream (bytes "GET") (bytes "/files") (bytes "HTTP/1.1") (bytes "\r\n"))
        (bytes "d") [] = none :=
  ⟨(short_path_aborts (bytes "GET") (bytes "HTTP/1.1") (bytes "\r\n") [] (bytes "d")
      [] []).1 (by decide) (by decide) (by decide) (by decide),
   (short_path_aborts (bytes "GET") (bytes "HTTP/1.1") (bytes "\r\n") [] (bytes "d")
      [] []).2.1 (by decide) (by decide) (by decide)⟩


/-- C9: the response does not depend on the version token of the request
line, and on a route whose first path segment is not files it does not
depend on the method token either: such requests differing only in those
tokens get byte-identical results. -/
theorem method_version_independence (m m1 m2 p v v1 v2 rest dir : ByteStr) (fs : FS) :
    (IsToken m → IsToken p → AsciiWsFree v1 → AsciiWsFree v2 →
      validUtf8 (requestLine m p v1) = true →
      validUtf8 (requestLine m p v2) = true →
      handle_connection (mkStream m p v1 rest) dir fs
        = handle_connection (mkStream m p v2 rest) dir fs)
    ∧ (IsToken m1 → IsToken m2 → IsToken p → AsciiWsFree v →
      validUtf8 (requestLine m1 p v) = true →
      validUtf8 (requestLine m2 p v) = true →
      (splitOn 47 p).get? 1 ≠ some (bytes "files") →
      handle_connection (mkStream m1 p v rest) dir fs
        = handle_connection (mkStream m2 p v rest) dir fs) := by
  constructor
  · intro hm hp hv1 hv2 hutf1 hutf2
    rw [handle_connection_eq m p v1 rest dir fs hm hp hv1 hutf1,
      handle_connection_eq m p v2 rest dir fs hm hp hv2 hutf2]
  · intro hm1 hm2 hp hv hutf1 hutf2 hseg
    rw [handle_connection_eq m1 p v rest dir fs hm1 hp hv hutf1,
      handle_connection_eq m2 p v rest dir fs hm2 hp hv hutf2]
    cases hph : parseHeaders rest [] with
    | none => rfl
    | some pr =>
      obtain ⟨hmap, rest2⟩ := pr
      show (match dispatch m1 p hmap dir fs rest2 with
        | none => none
        | some (r, fs') => some (r.format, fs')) =
        (match dispatch m2 p hmap dir fs rest2 with
        | none => none
        | some (r, fs') => some (r.format, fs'))
      rw [dispatch_req_indep m1 m2 p hmap dir fs rest2 hseg]

theorem method_version_independence_witness :
    handle_connection
        (mkStream (bytes "GET") (bytes "/echo/x") (bytes "HTTP/1.1") (bytes "\r\n"))
        (bytes "d") []
      = handle_connection
        (mkStream (bytes "POST") (bytes "/echo/x") (bytes "HTTP/1.1") (bytes "\r\n"))
        (bytes "d") [] :=
  (method_version_independence (bytes "GET") (bytes "GET") (bytes "POST") (bytes "/echo/x")
    (bytes "HTTP/1.1") (bytes "HTTP/1.0") (bytes "HTTP/1.1") (bytes "\r\n") (bytes "d")
    []).2 (by decide) (by decide) (by decide) (by decide) (by decide) (by decide) (by decide)

/-- C7: header parsing stops at the line that is exactly CRLF; any other
line is split at its first colon with both parts trimmed and inserted into
the map; a later duplicate name overwrites the earlier value; and a line
with no colon makes the parse, and the whole handler, abort with no
response. -/
theorem header_parsing_spec (k v l rest v1 v2 m p vt dir : ByteStr) (fs : FS)
    (hm : HeaderMap) :
    (parseHeaders ([13, 10] ++ rest) hm = some (hm, rest))
    ∧ ((∀ b ∈ k, b ≠ 58) → (∀ b ∈ k, b ≠ 10) → (∀ b ∈ v, b ≠ 10) →
        validUtf8 (k ++ (58 :: (v ++ [13, 10]))) = true →
        parseHeaders ((k ++ (58 :: (v ++ [13, 10]))) ++ rest) hm =
          parseHeaders rest (hmInsert hm (trim k) (trim (v ++ [13, 10]))))
    ∧ (hmGet (hmInsert (hmInsert hm k v1) k v2) k = some v2)
    ∧ ((∀ b ∈ l, b ≠ 58) → (∀ b ∈ l, b ≠ 10) → l ≠ [13] →
        parseHeaders ((l ++ [10]) ++ rest) hm = none)
    ∧ (IsToken m → IsToken p → AsciiWsFree vt →
        validUtf8 (requestLine m p vt) = true →
        (∀ b ∈ l, b ≠ 58) → (∀ b ∈ l, b ≠ 10) → l ≠ [13] →
        handle_connection (mkStream m p vt ((l ++ [10]) ++ rest)) dir fs = none) := by
  refine ⟨parseHeaders_end rest hm,
    fun a b c d => parseHeaders_step k v rest hm a b c d,
    hmGet_hmInsert _ _ _,
    fun a b c => parseHeaders_nocolon l rest hm a b c, ?_⟩
  intro hmt hpt hvt hutf a b c
  rw [handle_connection_eq m p vt _ dir fs hmt hpt hvt hutf,
    parseHeaders_nocolon l rest [] a b c]

theorem header_parsing_spec_witness :
    (parseHeaders ([13, 10] ++ bytes "\r\n") [] = some ([], bytes "\r\n"))
    ∧ (parseHeaders ((bytes "Host" ++ (58 :: (bytes " example.com" ++ [13, 10])))
          ++ bytes "\r\n") [] =
        parseHeaders (bytes "\r\n")
          (hmInsert [] (trim (bytes "Host")) (trim (bytes " example.com" ++ [13, 10]))))
    ∧ (hmGet (hmInsert (hmInsert [] (bytes "Host") (bytes "one")) (bytes "Host")
        (bytes "two")) (bytes "Host") = some (bytes "two"))
    ∧ (parseHeaders ((bytes "junk" ++ [10]) ++ bytes "\r\n") [] = none)
    ∧ (handle_connection
        (mkStream (bytes "GET") (bytes "/") (bytes "HTTP/1.1")
          ((bytes "junk" ++ [10]) ++ bytes "\r\n")) (bytes "d") [] = none) :=
  have h := header_parsing_spec (bytes "Host") (bytes " example.com") (bytes "junk")
    (bytes "\r\n") (bytes "one") (bytes "two") (bytes "GET") (bytes "/")
    (bytes "HTTP/1.1") (bytes "d") [] []
  ⟨h.1, h.2.1 (by decide) (by decide) (by decide) (by decide), h.2.2.1,
    h.2.2.2.1 (by decide) (by decide) (by decide),
    h.2.2.2.2 (by decide) (by decide) (by decide) (by decide) (by decide) (by decide)
      (by decide)⟩

theorem files_roundtrip_counterexample :
    handle_connection
        (bytes "POST /files/f HTTP/1.1\r\nContent-Length: 1\r\n\r\n" ++ [255])
        (bytes "d") [] =
      some (bytes "HTTP/1.1 201 Created\r\n\r\n", [(bytes "d/f", [255])])
    ∧ fsLookup [(bytes "d/f", [255])] (bytes "d/f") = some [255]
    ∧ handle_connection (bytes "GET /files/f HTTP/1.1\r\n\r\n") (bytes "d")
        [(bytes "d/f", [255])] =
      some (bytes "HTTP/1.1 404 Not Found\r\n\r\n", [(bytes "d/f", [255])])
    ∧ (bytes "HTTP/1.1 404 Not Found\r\n\r\n" : ByteStr) ≠
      bytes "HTTP/1.1 200 OK\r\nContent-Type: application/octet-stream\r\nContent-Length: 1\r\n\r\n"
        ++ [255] :=
  ⟨by decide, by decide, by decide, by decide⟩

/-- C2 (amended): for every body B that is valid UTF-8 text, a POST to
/files/<name> carrying a Content-Length header parsing to the length of B
and exactly those bytes on the stream returns 201 Created with no headers
and no body and leaves the file <directory>/<name> containing exactly B,
and a subsequent GET /files/<name> returns a 200 response whose body
equals B unchanged. -/
theorem files_roundtrip_utf8 (name clv B v1 v2 rest grest grest2 dir : ByteStr)
    (fs : FS) (hmap ghmap : HeaderMap)
    (hname : AsciiWsFree name) (hb : headBoundaryOk name = true)
    (hv1 : AsciiWsFree v1) (hv2 : AsciiWsFree v2)
    (hButf : validUtf8 B = true)
    (hutf1 : validUtf8 (requestLine (bytes "POST") (bytes "/files/" ++ name) v1) = true)
    (hutf2 : validUtf8 (requestLine (bytes "GET") (bytes "/files/" ++ name) v2) = true)
    (hhdrs : parseHeaders rest [] = some (hmap, B))
    (hcl : hmGet hmap (bytes "Content-Length") = some clv)
    (hn : parseUsize clv = some B.length)
    (ghdrs : parseHeaders grest [] = some (ghmap, grest2)) :
    handle_connection (mkStream (bytes "POST") (bytes "/files/" ++ name) v1 rest) dir fs
      = some (bytes "HTTP/1.1 201 Created\r\n\r\n",
          fsWrite fs ((dir ++ [47]) ++ name) B)
    ∧ handle_connection (mkStream (bytes "GET") (bytes "/files/" ++ name) v2 grest) dir
        (fsWrite fs ((dir ++ [47]) ++ name) B)
      = some ((HTTPResponse.mk .OK (bytes "OK")
          (some [bytes "Content-Type: application/octet-stream",
                 bytes "Content-Length: " ++ natDigits B.length])
          (some B)).format, fsWrite fs ((dir ++ [47]) ++ name) B) := by
  have hp : IsToken (bytes "/files/" ++ name) :=
    ⟨by simp [bytes], wsFree_append _ _ (by decide) hname⟩
  constructor
  · rw [handle_connection_eq _ _ v1 rest dir fs (by decide) hp hv1 hutf1, hhdrs]
    show (match dispatch (bytes "POST") (bytes "/files/" ++ name) hmap dir fs B with
      | none => none
      | some (r, fs') => some (r.format, fs')) = _
    rw [dispatch_files_post name clv hmap dir fs B B.length hb hcl hn]
    have hbody : B.take B.length ++ List.replicate (B.length - B.length) 0 = B := by
      simp
    rw [hbody]
    rfl
  · rw [handle_connection_eq _ _ v2 grest dir _ (by decide) hp hv2 hutf2, ghdrs]
    show (match dispatch (bytes "GET") (bytes "/files/" ++ name) ghmap dir
        (fsWrite fs ((dir ++ [47]) ++ name) B) grest2 with
      | none => none
      | some (r, fs') => some (r.format, fs')) = _
    rw [dispatch_files_get name ghmap dir _ grest2 hb]
    have hread : fsReadToString (fsWrite fs ((dir ++ [47]) ++ name) B)
        ((dir ++ [47]) ++ name) = some B := by
      unfold fsReadToString
      rw [fsLookup_fsWrite]
      simp [hButf]
    rw [hread]

theorem files_roundtrip_utf8_witness :
    handle_connection
        (mkStream (bytes "POST") (bytes "/files/" ++ bytes "f") (bytes "HTTP/1.1")
          (bytes "Content-Length: 2\r\n\r\n" ++ bytes "hi")) (bytes "d") []
      = some (bytes "HTTP/1.1 201 Created\r\n\r\n",
          fsWrite [] ((bytes "d" ++ [47]) ++ bytes "f") (bytes "hi"))
    ∧ handle_connection
        (mkStream (bytes "GET") (bytes "/files/" ++ bytes "f") (bytes "HTTP/1.1")
          (bytes "\r\n")) (bytes "d")
        (fsWrite [] ((bytes "d" ++ [47]) ++ bytes "f") (bytes "hi"))
      = some ((HTTPResponse.mk .OK (bytes "OK")
          (some [bytes "Content-Type: application/octet-stream",
                 bytes "Content-Length: " ++ natDigits (bytes "hi").length])
          (some (bytes "hi"))).format,
          fsWrite [] ((bytes "d" ++ [47]) ++ bytes "f") (bytes "hi")) :=
  files_roundtrip_utf8 (bytes "f") (bytes "2") (bytes "hi") (bytes "HTTP/1.1")
    (bytes "HTTP/1.1") (bytes "Content-Length: 2\r\n\r\n" ++ bytes "hi") (bytes "\r\n")
    [] (bytes "d") [] [(bytes "Content-Length", bytes "2")] []
    (by decide) (by decide) (by decide) (by decide) (by decide) (by decide) (by decide)
    (by decide) (by decide) (by decide) (by decide)


end HttpServer
